import Mathlib

/-!
# Verification of the StatusPage polling/diff engine and event bus

A shallow embedding of `app/models.py`, `app/monitor.py` and
`app/event_bus.py` from the repository, together with proofs about the
diff engine (`StatusPageMonitor._diff_and_publish`), the tick cycle
(`StatusPageMonitor._tick`), the summary cache
(`StatusPageMonitor._fetch_summary`) and the event bus
(`Subscription.deliver`, `EventBus.publish`, `EventBus.subscribe`).

Conventions of the embedding:
* Python `datetime` values are modelled as `Nat` timestamps.
* A Python `dict[str, Incident]` produced by `_parse_incidents` is
  modelled as a `List Incident` in insertion order (the dict is keyed by
  `incident.id`, so distinctness of ids is stated as a `Nodup`
  hypothesis where a proof needs it).
* A Python `set[str]` is modelled as a `List String` used up to
  membership.
* Async delivery of one event to one subscriber depends only on that
  subscriber's own state, so fan-out is modelled as a `List.map`.
-/

set_option autoImplicit false

namespace StatusPage

/-- `IncidentStatus` from `app/models.py`: lifecycle status of an incident. -/
inductive IncidentStatus where
  | investigating
  | identified
  | monitoring
  | resolved
  | postmortem
  deriving DecidableEq, Repr

/-- `IncidentImpact` from `app/models.py`: severity level of an incident. -/
inductive IncidentImpact where
  | none
  | minor
  | major
  | critical
  deriving DecidableEq, Repr

/-- `ComponentStatusValue` from `app/models.py`. -/
inductive ComponentStatusValue where
  | operational
  | degraded_performance
  | partial_outage
  | major_outage
  | under_maintenance
  deriving DecidableEq, Repr

/-- `IncidentUpdate` from `app/models.py`: one timeline entry within an
incident. Timestamps are `Nat`. -/
structure IncidentUpdate where
  id : String
  status : IncidentStatus
  body : String := ""
  created_at : Nat
  updated_at : Option Nat := Option.none
  deriving DecidableEq, Repr

/-- `Incident` from `app/models.py`: a full incident with its timeline. -/
structure Incident where
  id : String
  name : String
  status : IncidentStatus
  impact : IncidentImpact := IncidentImpact.none
  created_at : Nat
  updated_at : Option Nat := Option.none
  resolved_at : Option Nat := Option.none
  incident_updates : List IncidentUpdate := []
  deriving DecidableEq, Repr

/-- `StatusEvent` from `app/models.py`: the canonical event emitted on the
internal event bus.  `event_type` is one of `"incident_update"`,
`"new_incident"`, `"resolved"` exactly as in the Python source. -/
structure StatusEvent where
  provider : String
  incident : Incident
  event_type : String := "incident_update"
  detected_at : Nat
  deriving DecidableEq, Repr

/-- `ComponentStatus` from `app/models.py`. -/
structure ComponentStatus where
  id : String
  name : String
  status : ComponentStatusValue
  created_at : Option Nat := Option.none
  updated_at : Option Nat := Option.none
  deriving DecidableEq, Repr

/-- `StatusSummary` from `app/models.py`: overall status snapshot for a
single provider. -/
structure StatusSummary where
  provider : String
  status_description : String
  components : List ComponentStatus := []
  active_incidents : List Incident := []
  last_checked : Option Nat := Option.none
  deriving DecidableEq, Repr

/-!
## Diff engine — `StatusPageMonitor._diff_and_publish`

The monitor keeps `self._known_incidents : dict[str, Incident]` and a
single monitor-wide `self._known_update_ids : set[str]` (note: one set
for the whole provider, not one per incident).  `_diff_and_publish`
first walks `current.items()` emitting `new_incident` /
`incident_update` events and growing `_known_update_ids`, then walks
`self._known_incidents` emitting `resolved` events, and finally replaces
`_known_incidents` with `current`.
-/

/-- The diffing state carried by the monitor between ticks:
`self._known_incidents` (as a list in dict insertion order) and
`self._known_update_ids` (a list used up to membership). -/
structure DiffState where
  known_incidents : List Incident := []
  known_update_ids : List String := []
  deriving DecidableEq, Repr

/-- `{u.id for u in incident.incident_updates}` — the update-id set of an
incident, as a list up to membership. -/
def updateIds (inc : Incident) : List String :=
  inc.incident_updates.map IncidentUpdate.id

/-- First loop of `_diff_and_publish`: walk `current` in order; a
brand-new incident id emits `new_incident` and records all its update
ids as known; an existing incident id emits `incident_update` exactly
when it carries an update id not yet in the monitor-wide known set, and
records the new ids.  Returns the emitted events in publish order
together with the grown known-update-id set. -/
def diffCurrentLoop (provider : String) (now : Nat) (knownIncs : List Incident) :
    List Incident → List String → List StatusEvent × List String
  | [], known => ([], known)
  | inc :: rest, known =>
    if knownIncs.any (fun k => k.id == inc.id) then
      let newIds := (updateIds inc).filter (fun u => !known.contains u)
      if newIds.isEmpty then
        diffCurrentLoop provider now knownIncs rest known
      else
        let res := diffCurrentLoop provider now knownIncs rest (known ++ newIds)
        (⟨provider, inc, "incident_update", now⟩ :: res.1, res.2)
    else
      let res := diffCurrentLoop provider now knownIncs rest (known ++ updateIds inc)
      (⟨provider, inc, "new_incident", now⟩ :: res.1, res.2)

/-- Second loop of `_diff_and_publish`: for every previously known
incident whose entry in `current` exists and moved from a non-`resolved`
status to `resolved`, emit one `resolved` event carrying the current
incident. -/
def diffResolvedLoop (provider : String) (now : Nat) (knownIncs current : List Incident) :
    List StatusEvent :=
  knownIncs.filterMap (fun old =>
    match current.find? (fun c => c.id == old.id) with
    | Option.some nw =>
      if old.status ≠ IncidentStatus.resolved ∧ nw.status = IncidentStatus.resolved then
        Option.some ⟨provider, nw, "resolved", now⟩
      else
        Option.none
    | Option.none => Option.none)

/-- `StatusPageMonitor._diff_and_publish`: emit events for `current`
against the previous state, then replace `_known_incidents` with
`current`.  Events are returned in the order they are published. -/
def diffAndPublish (provider : String) (now : Nat) (st : DiffState) (current : List Incident) :
    List StatusEvent × DiffState :=
  let res := diffCurrentLoop provider now st.known_incidents current st.known_update_ids
  (res.1 ++ diffResolvedLoop provider now st.known_incidents current,
   { known_incidents := current, known_update_ids := res.2 })

/-- Events of a given type for a given incident id, counted. -/
def countEventsFor (ty i : String) (evs : List StatusEvent) : Nat :=
  (evs.filter (fun e => e.event_type == ty && e.incident.id == i)).length

/-!
## Event bus — `app/event_bus.py`

A `Subscription` owns an `asyncio.Queue(maxsize)` and an optional async
callback.  `Subscription.deliver` pushes with `put_nowait`; on
`QueueFull` it pops one element (`get_nowait`, guarded against
`QueueEmpty`) and pushes again — drop-oldest; then it awaits the
callback, swallowing any exception it raises.  `EventBus.publish`
snapshots the subscriber map under the lock and delivers to every
snapshot member via `asyncio.gather(..., return_exceptions=True)`, so
one delivery depends only on that subscriber's own state.
-/

/-- The queue part of `Subscription.deliver`: `asyncio.Queue` with
`maxsize` behaves like a FIFO list (head = oldest); `maxsize = 0` means
unbounded, matching asyncio.  On overflow the oldest element is dropped
(the `QueueEmpty` guard corresponds to `List.drop` of an empty list). -/
def deliverQueue (maxsize : Nat) (q : List StatusEvent) (e : StatusEvent) : List StatusEvent :=
  if maxsize == 0 || q.length < maxsize then q ++ [e]
  else q.drop 1 ++ [e]

/-- A model of a callback raising (`Except.error`) or returning
(`Except.ok`); `deliver` catches and logs the error. -/
abbrev Callback := StatusEvent → Except String Unit

/-- `Subscription` from `app/event_bus.py`.  `uuid4().hex` is modelled
as a `Nat` drawn from the bus's fresh counter — uniqueness is the only
property the code relies on.  The queue holds the pending events, head
first. -/
structure Subscription where
  sid : Nat
  maxsize : Nat := 256
  queue : List StatusEvent := []
  callback : Option Callback := Option.none

/-- `Subscription.deliver`: enqueue with drop-oldest, then run the
callback; a callback exception is caught (second component), leaving the
subscription state as the queue update alone. -/
def Subscription.deliver (sub : Subscription) (e : StatusEvent) :
    Subscription × Except String Unit :=
  ({ sub with queue := deliverQueue sub.maxsize sub.queue e },
   match sub.callback with
   | Option.none => Except.ok ()
   | Option.some f => f e)

/-- `EventBus.publish` restricted to the snapshot it took: each delivery
reads and writes only its own subscriber, and `gather` with
`return_exceptions=True` discards per-delivery failures, so fan-out is a
`map` that keeps every subscriber's updated state. -/
def publishAll (subs : List Subscription) (e : StatusEvent) : List Subscription :=
  subs.map (fun s => (s.deliver e).1)

/-- The bus state: the subscriber map (a list in insertion order, keyed
by `sid`) plus the fresh-id counter modelling `uuid4`. -/
structure BusState where
  nextId : Nat := 0
  subscribers : List Subscription := []

/-- One bus operation: register a subscriber (`EventBus.subscribe` with
a queue capacity and an optional callback), remove one
(`EventBus.unsubscribe`), or fan an event out (`EventBus.publish`). -/
inductive BusOp where
  | subscribe (maxsize : Nat) (callback : Option Callback)
  | unsubscribe (sid : Nat)
  | publish (e : StatusEvent)

/-- Bus transition: `subscribe` creates a subscription with an empty
queue and installs it in the map; `unsubscribe` removes by id
(idempotent); `publish` snapshots the map and delivers to each member. -/
def busStep (st : BusState) : BusOp → BusState
  | BusOp.subscribe m cb =>
    { nextId := st.nextId + 1,
      subscribers := st.subscribers ++ [{ sid := st.nextId, maxsize := m, callback := cb }] }
  | BusOp.unsubscribe sid =>
    { st with subscribers := st.subscribers.filter (fun s => s.sid != sid) }
  | BusOp.publish e =>
    { st with subscribers := publishAll st.subscribers e }

/-- Run a sequence of bus operations from a state. -/
def busRun (st : BusState) : List BusOp → BusState
  | [] => st
  | op :: rest => busRun (busStep st op) rest

/-- The bus as constructed by `EventBus.__init__`: no subscribers. -/
def busInit : BusState := {}

/-!
## Monitor tick — `StatusPageMonitor._tick` and `_fetch_summary`

`_tick` fetches `/incidents.json` with conditional headers.  A `304`
returns immediately (nothing is touched).  `raise_for_status` aborts the
tick on a non-2xx status before any state is written.  Otherwise the
`etag` / `last-modified` headers are stored, the body is hashed and
compared against `_last_hash` (stored before this tick); an equal hash
returns with the validators already overwritten but the hash, snapshot
and summary untouched.  A changed hash is committed, then `resp.json()`
is parsed — a parse exception propagates to the loop in `start`, so the
diff and the summary refresh are skipped while the validators and the
hash stay committed.  On a successful parse the diff runs, then
`_fetch_summary` replaces `_summary` wholesale on success and leaves it
untouched on any failure.
-/

/-- The per-monitor mutable state from `StatusPageMonitor.__init__`:
conditional-request validators, content hash, diffing state and the
summary cache. -/
structure MonitorState where
  etag : Option String := Option.none
  last_modified : Option String := Option.none
  last_hash : Option String := Option.none
  diff : DiffState := {}
  summary : Option StatusSummary := Option.none

/-- Outcome of the conditional GET of `/incidents.json`:
`httpError` covers a transport exception or `raise_for_status` raising
on a non-2xx/304 status; `notModified` is a `304`; `ok` carries the
response's `etag` / `last-modified` headers and body. -/
inductive FetchOutcome where
  | httpError
  | notModified
  | ok (etag last_modified : Option String) (body : String)

/-- SHA-256 is used only through equality of hex digests of bodies, and
is treated by the code as an ideal (collision-free, deterministic)
digest; the identity function is therefore a faithful model of
`hashlib.sha256(body).hexdigest()`. -/
def sha256Hexdigest (body : String) : String := body

/-- Raw result of a successful GET of `/summary.json`, after
field extraction: each component either parsed into a `ComponentStatus`
or failed (`Option.none`, skipped by the inner `except: pass`), and the
optional `status.description` field. -/
structure SummaryData where
  components : List (Option ComponentStatus) := []
  description : Option String := Option.none

/-- `StatusPageMonitor._fetch_summary`: on any failure (request error,
non-success status, body parse failure — `fetched = Option.none`) the
previous cached summary is kept; on success the cache is replaced
wholesale, with `active_incidents` drawn from `_known_incidents` (which
at this point already holds the current snapshot). -/
def fetchSummary (provider : String) (now : Nat) (knownIncs : List Incident)
    (old : Option StatusSummary) (fetched : Option SummaryData) : Option StatusSummary :=
  match fetched with
  | Option.none => old
  | Option.some d =>
    Option.some
      { provider := provider,
        status_description := d.description.getD "Unknown",
        components := d.components.filterMap id,
        active_incidents :=
          knownIncs.filter (fun inc => decide (inc.status ≠ IncidentStatus.resolved)),
        last_checked := Option.some now }

/-- `StatusPageMonitor._tick` as a function of the monitor state and the
tick's inputs: the incident-fetch outcome, the JSON/incident parse
(`parse body = Option.none` models `resp.json()` raising), and the
summary-fetch outcome.  Returns the post-tick state and the events
published during the tick, in publish order. -/
def tick (provider : String) (now : Nat) (parse : String → Option (List Incident))
    (fetch : FetchOutcome) (summaryFetched : Option SummaryData) (st : MonitorState) :
    MonitorState × List StatusEvent :=
  match fetch with
  | FetchOutcome.httpError => (st, [])
  | FetchOutcome.notModified => (st, [])
  | FetchOutcome.ok etag lm body =>
    let st1 := { st with etag := etag, last_modified := lm }
    let bodyHash := sha256Hexdigest body
    if Option.some bodyHash == st.last_hash then (st1, [])
    else
      let st2 := { st1 with last_hash := Option.some bodyHash }
      match parse body with
      | Option.none => (st2, [])
      | Option.some current =>
        let res := diffAndPublish provider now st.diff current
        let st3 := { st2 with diff := res.2 }
        ({ st3 with
            summary := fetchSummary provider now res.2.known_incidents st3.summary
              summaryFetched },
         res.1)

/-!
## Concrete sample values

Small concrete incidents, events and subscriptions used by the
counterexample and witness theorems below.
-/

/-- A minimal timeline entry with a given update id. -/
def sampleUpdate (i : String) : IncidentUpdate :=
  { id := i, status := IncidentStatus.investigating, created_at := 0 }

/-- A minimal incident with a given id, status and update ids. -/
def sampleIncident (i : String) (s : IncidentStatus) (us : List String) : Incident :=
  { id := i, name := i, status := s, created_at := 0, incident_updates := us.map sampleUpdate }

/-- A minimal event distinguished by its detection timestamp. -/
def sampleEvent (n : Nat) : StatusEvent :=
  { provider := "p", incident := sampleIncident "A" IncidentStatus.investigating [],
    detected_at := n }

/-- A minimal cached summary. -/
def sampleSummary : StatusSummary :=
  { provider := "p", status_description := "All Systems Operational" }

/-- A callback that raises. -/
def sampleFailingCallback : Callback := fun _ => Except.error "callback failure"

/-- A callback that succeeds. -/
def sampleOkCallback : Callback := fun _ => Except.ok ()

/-- A subscriber whose queue is already full and whose callback raises. -/
def sampleFullFailingSub : Subscription :=
  { sid := 0, maxsize := 1, queue := [sampleEvent 1],
    callback := Option.some sampleFailingCallback }

/-- A healthy subscriber with room in its queue and no callback. -/
def sampleOkSub : Subscription :=
  { sid := 1, maxsize := 2, queue := [], callback := Option.none }

/-- Another subscriber, with a succeeding callback. -/
def sampleOtherSub : Subscription :=
  { sid := 2, maxsize := 2, queue := [], callback := Option.some sampleOkCallback }

/-!
## Theorems
-/

/-- C1: counterexample to the claimed per-incident known-update-id set.
`_diff_and_publish` keeps one monitor-wide `_known_update_ids` set, so
an update id `"u1"` first seen on incident `A` suppresses the
`incident_update` event for incident `B` when `B` later gains its own
(first ever) update with the same id `"u1"`.  Here `B` previously had no
updates at all, its current snapshot entry carries the genuinely new
update id `"u1"` (so the claimed per-incident difference set is
non-empty), yet the diff emits no `incident_update` event for `B`. -/
theorem diff_cross_incident_suppression :
    updateIds (sampleIncident "B" IncidentStatus.identified ["u1"]) = ["u1"] ∧
    updateIds (sampleIncident "B" IncidentStatus.investigating []) = [] ∧
    countEventsFor "incident_update" "B"
      (diffAndPublish "p" 1
        { known_incidents := [sampleIncident "A" IncidentStatus.investigating ["u1"],
                              sampleIncident "B" IncidentStatus.investigating []],
          known_update_ids := ["u1"] }
        [sampleIncident "A" IncidentStatus.investigating ["u1"],
         sampleIncident "B" IncidentStatus.identified ["u1"]]).1 = 0 := by
  decide

/-- Delivery keeps a queue within its capacity (`asyncio.Queue` is never
over-filled: on overflow one element is popped before the push). -/
theorem deliverQueue_length_le {N : Nat} (hN : 0 < N) {q : List StatusEvent} (e : StatusEvent)
    (h : q.length ≤ N) : (deliverQueue N q e).length ≤ N := by
  unfold deliverQueue
  by_cases hlt : q.length < N
  · simp [hlt]
    omega
  · have hq : q.length = N := Nat.le_antisymm h (Nat.le_of_not_lt hlt)
    have hn0 : (N == 0) = false := by simp; omega
    simp [hlt, hn0]
    omega

/-- Folding deliveries over a queue that respects its capacity leaves
exactly the newest `N` of the concatenated history. -/
theorem foldl_deliverQueue_eq_drop {N : Nat} (hN : 0 < N) (es : List StatusEvent) :
    ∀ q : List StatusEvent, q.length ≤ N →
      es.foldl (deliverQueue N) q = (q ++ es).drop ((q ++ es).length - N) := by
  induction es with
  | nil =>
    intro q h
    have h0 : q.length - N = 0 := by omega
    simp [h0]
  | cons e rest ih =>
    intro q h
    have hstep : (deliverQueue N q e).length ≤ N := deliverQueue_length_le hN e h
    rw [List.foldl_cons, ih _ hstep]
    by_cases hlt : q.length < N
    · have : deliverQueue N q e = q ++ [e] := by
        unfold deliverQueue
        simp [hlt]
      rw [this]
      simp
    · have hq : q.length = N := Nat.le_antisymm h (Nat.le_of_not_lt hlt)
      have hn0 : (N == 0) = false := by simp; omega
      have hdq : deliverQueue N q e = q.drop 1 ++ [e] := by
        unfold deliverQueue
        simp [hlt, hn0]
      rw [hdq]
      cases q with
      | nil => simp at hq; omega
      | cons a t =>
        have ht : t.length + 1 = N := by simpa using hq
        have e1 : (a :: t).drop 1 = t := rfl
        rw [e1]
        have hlen1 : ((t ++ [e]) ++ rest).length - N = rest.length := by simp; omega
        have hlen2 : ((a :: t) ++ e :: rest).length - N = rest.length + 1 := by simp; omega
        rw [hlen1, hlen2]
        have e2 : ((a :: t) ++ e :: rest) = a :: (t ++ e :: rest) := rfl
        rw [e2, List.drop_succ_cons]
        have e3 : (t ++ [e]) ++ rest = t ++ e :: rest := by simp
        rw [e3]

/-- C3: a subscriber with queue capacity `N > 0` that never consumes
holds at most `N` events, and after more than `N` deliveries holds
exactly the `N` most recently published events in publish order
(`Subscription.deliver` drop-oldest policy). -/
theorem subscriber_queue_drop_oldest (N : Nat) (hN : 0 < N) (es : List StatusEvent) :
    (es.foldl (deliverQueue N) []).length ≤ N ∧
    (N < es.length → es.foldl (deliverQueue N) [] = es.drop (es.length - N)) := by
  have h := foldl_deliverQueue_eq_drop hN es [] (by simp)
  simp only [List.nil_append] at h
  refine ⟨?_, fun _ => h⟩
  rw [h, List.length_drop]
  omega

/-- Witness for C3: capacity 2, three events delivered, queue ends as
the last two events in order. -/
theorem subscriber_queue_drop_oldest_witness :
    0 < 2 ∧ ([sampleEvent 1, sampleEvent 2, sampleEvent 3].foldl (deliverQueue 2) [] =
      [sampleEvent 2, sampleEvent 3]) :=
  ⟨by decide,
   (subscriber_queue_drop_oldest 2 (by decide) [sampleEvent 1, sampleEvent 2, sampleEvent 3]).2
     (by decide)⟩

/-- Structure of the events of the first diff loop: each carries the
configured provider, the tick timestamp and an incident of `current`,
and is a `new_incident` event for a previously unknown incident id or an
`incident_update` event for a known one. -/
theorem diffCurrentLoop_events_spec (p : String) (now : Nat) (K : List Incident) :
    ∀ (cur : List Incident) (ku : List String) (e : StatusEvent),
      e ∈ (diffCurrentLoop p now K cur ku).1 →
      e.provider = p ∧ e.detected_at = now ∧ e.incident ∈ cur ∧
      ((e.event_type = "new_incident" ∧ ∀ k ∈ K, k.id ≠ e.incident.id) ∨
       (e.event_type = "incident_update" ∧ ∃ k ∈ K, k.id = e.incident.id)) := by
  intro cur
  induction cur with
  | nil => intro ku e h; simp [diffCurrentLoop] at h
  | cons inc rest ih =>
    intro ku e h
    by_cases hk : K.any (fun k => k.id == inc.id)
    · by_cases hni : ((updateIds inc).filter (fun u => !ku.contains u)).isEmpty
      · rw [diffCurrentLoop] at h
        simp only [hk, if_true, hni] at h
        have := ih ku e h
        tauto
      · rw [diffCurrentLoop] at h
        simp only [hk, if_true, hni, if_false] at h
        rcases List.mem_cons.mp h with he | he
        · subst he
          refine ⟨rfl, rfl, by simp, Or.inr ⟨rfl, ?_⟩⟩
          rcases List.any_eq_true.mp hk with ⟨k, hkmem, hkid⟩
          exact ⟨k, hkmem, by simpa using hkid⟩
        · have := ih _ e he
          tauto
    · rw [diffCurrentLoop] at h
      rw [if_neg hk] at h
      rcases List.mem_cons.mp h with he | he
      · subst he
        refine ⟨rfl, rfl, by simp, Or.inl ⟨rfl, ?_⟩⟩
        intro k hkmem
        simp only [List.any_eq_true, not_exists, not_and] at hk
        push_neg at hk
        have := hk k hkmem
        simpa using this
      · have := ih _ e he
        tauto

/-- Structure of the events of the `resolved` loop: each is a `resolved`
event carrying a resolved incident of `current` whose id matches a
previously known, not yet resolved incident. -/
theorem diffResolvedLoop_mem (p : String) (now : Nat) (K cur : List Incident) (e : StatusEvent)
    (h : e ∈ diffResolvedLoop p now K cur) :
    e.provider = p ∧ e.detected_at = now ∧ e.event_type = "resolved" ∧
    e.incident ∈ cur ∧ e.incident.status = IncidentStatus.resolved ∧
    ∃ old ∈ K, old.id = e.incident.id ∧ old.status ≠ IncidentStatus.resolved := by
  rcases List.mem_filterMap.mp h with ⟨old, hold, hf⟩
  rcases hfind : cur.find? (fun c => c.id == old.id) with _ | nw
  · rw [hfind] at hf
    simp at hf
  · rw [hfind] at hf
    dsimp only at hf
    by_cases hcond : old.status ≠ IncidentStatus.resolved ∧ nw.status = IncidentStatus.resolved
    · rw [if_pos hcond] at hf
      simp only [Option.some.injEq] at hf
      subst hf
      have hnwmem : nw ∈ cur := List.mem_of_find?_eq_some hfind
      have hnwid : nw.id = old.id := by
        have := List.find?_some hfind
        simpa using this
      exact ⟨rfl, rfl, rfl, hnwmem, hcond.2, old, hold, hnwid.symm, hcond.1⟩
    · rw [if_neg hcond] at hf
      simp at hf

/-- In a snapshot with pairwise distinct incident ids, `find?` by id
returns exactly the member with that id. -/
theorem find?_id_unique (i : String) (nw : Incident) :
    ∀ cur : List Incident, (cur.map Incident.id).Nodup → nw ∈ cur → nw.id = i →
      cur.find? (fun c => c.id == i) = Option.some nw := by
  intro cur
  induction cur with
  | nil => intro _ hmem; simp at hmem
  | cons c rest ih =>
    intro hnd hmem hid
    rcases List.mem_cons.mp hmem with he | he
    · subst he
      rw [List.find?_cons]
      simp [hid]
    · have hcid : c.id ≠ i := by
        intro hc
        have h1 : c.id ∉ rest.map Incident.id := (List.nodup_cons.mp (by simpa using hnd)).1
        exact h1 (hc ▸ (hid ▸ List.mem_map_of_mem Incident.id he))
      rw [List.find?_cons]
      have : (c.id == i) = false := by simpa using hcid
      simp [this]
      exact ih (List.nodup_cons.mp (by simpa using hnd)).2 he hid

/-- Count of `resolved` events for a given incident id emitted by the
`resolved` loop: exactly one when a known non-resolved incident with
that id is resolved in `current`, zero otherwise. -/
theorem diffResolvedLoop_count (p : String) (now : Nat) (i : String) (cur : List Incident)
    (hC : (cur.map Incident.id).Nodup) :
    ∀ K : List Incident, (K.map Incident.id).Nodup →
      countEventsFor "resolved" i (diffResolvedLoop p now K cur) =
        if ∃ old ∈ K, old.id = i ∧ old.status ≠ IncidentStatus.resolved ∧
            ∃ nw ∈ cur, nw.id = i ∧ nw.status = IncidentStatus.resolved
        then 1 else 0 := by
  intro K
  induction K with
  | nil =>
    intro _
    rw [if_neg (by simp)]
    simp [diffResolvedLoop, countEventsFor]
  | cons old K ih =>
    intro hnd
    have hndK : (K.map Incident.id).Nodup := (List.nodup_cons.mp (by simpa using hnd)).2
    have hnotin : old.id ∉ K.map Incident.id := (List.nodup_cons.mp (by simpa using hnd)).1
    have hcount := ih hndK
    unfold diffResolvedLoop at hcount ⊢
    rw [List.filterMap_cons]
    by_cases hio : old.id = i
    · have hKfalse : ¬ ∃ o ∈ K, o.id = i ∧ o.status ≠ IncidentStatus.resolved ∧
          ∃ nw ∈ cur, nw.id = i ∧ nw.status = IncidentStatus.resolved := by
        rintro ⟨o, ho, hoid, _⟩
        have : old.id ∈ K.map Incident.id := by
          rw [hio, ← hoid]
          exact List.mem_map_of_mem Incident.id ho
        exact hnotin this
      rw [if_neg hKfalse] at hcount
      rcases hfind : cur.find? (fun c => c.id == old.id) with _ | nw
      · have hQfalse : ¬ ∃ nw ∈ cur, nw.id = i ∧ nw.status = IncidentStatus.resolved := by
          rintro ⟨nw, hnwmem, hnwid, _⟩
          have := find?_id_unique old.id nw cur hC hnwmem (hio ▸ hnwid)
          rw [hfind] at this
          exact Option.noConfusion this
        rw [hfind]
        dsimp only
        rw [if_neg]
        · exact hcount
        · rintro ⟨o, ho, hoid, _, hQ⟩
          exact hQfalse hQ
      · have hnwid : nw.id = old.id := by
          have := List.find?_some hfind
          simpa using this
        have hnwmem : nw ∈ cur := List.mem_of_find?_eq_some hfind
        rw [hfind]
        dsimp only
        by_cases hcond : old.status ≠ IncidentStatus.resolved ∧
            nw.status = IncidentStatus.resolved
        · rw [if_pos hcond]
          have hpred : (("resolved" : String) == "resolved" && nw.id == i) = true := by
            simp [hnwid, hio]
          rw [if_pos ?hP]
          case hP =>
            exact ⟨old, List.mem_cons_self old K, hio, hcond.1, nw, hnwmem,
              hnwid.trans hio, hcond.2⟩
          simp only [countEventsFor, List.filter_cons] at hcount ⊢
          simp only [hpred]
          simp only [if_true]
          rw [List.length_cons]
          omega
        · rw [if_neg hcond]
          dsimp only
          rw [if_neg]
          · exact hcount
          · rintro ⟨o, ho, hoid, host, hQ⟩
            rcases List.mem_cons.mp ho with he | he
            · subst he
              rcases hQ with ⟨nw2, hnw2mem, hnw2id, hnw2res⟩
              have := find?_id_unique o.id nw2 cur hC hnw2mem (hoid ▸ hnw2id)
              rw [hfind] at this
              have hnw2 : nw = nw2 := by
                simpa using this
              exact hcond ⟨host, hnw2 ▸ hnw2res⟩
            · have : old.id ∈ K.map Incident.id := by
                rw [hio, ← hoid]
                exact List.mem_map_of_mem Incident.id he
              exact hnotin this
    · have hiff : (∃ o ∈ old :: K, o.id = i ∧ o.status ≠ IncidentStatus.resolved ∧
          ∃ nw ∈ cur, nw.id = i ∧ nw.status = IncidentStatus.resolved) ↔
        (∃ o ∈ K, o.id = i ∧ o.status ≠ IncidentStatus.resolved ∧
          ∃ nw ∈ cur, nw.id = i ∧ nw.status = IncidentStatus.resolved) := by
        constructor
        · rintro ⟨o, ho, hoid, hrest⟩
          rcases List.mem_cons.mp ho with he | he
          · exact absurd (he ▸ hoid) hio
          · exact ⟨o, he, hoid, hrest⟩
        · rintro ⟨o, ho, hoid, hrest⟩
          exact ⟨o, List.mem_cons_of_mem old ho, hoid, hrest⟩
      rw [if_congr hiff rfl rfl]
      rcases hfind : cur.find? (fun c => c.id == old.id) with _ | nw
      · rw [hfind]
        dsimp only
        exact hcount
      · have hnwid : nw.id = old.id := by
          have := List.find?_some hfind
          simpa using this
        rw [hfind]
        dsimp only
        by_cases hcond : old.status ≠ IncidentStatus.resolved ∧
            nw.status = IncidentStatus.resolved
        · rw [if_pos hcond]
          simp only [countEventsFor, List.filter_cons] at hcount ⊢
          rw [if_neg ?hcnd]
          case hcnd =>
            simp only [Bool.and_eq_true, beq_iff_eq]
            rintro ⟨-, hni⟩
            rw [hnwid] at hni
            exact hio hni
          exact hcount
        · rw [if_neg hcond]
          dsimp only
          exact hcount


/-- Counting distributes over concatenation of event lists. -/
theorem countEventsFor_append (ty i : String) (l1 l2 : List StatusEvent) :
    countEventsFor ty i (l1 ++ l2) = countEventsFor ty i l1 + countEventsFor ty i l2 := by
  simp [countEventsFor, List.filter_append]

/-- The first diff loop never emits a `resolved` event. -/
theorem diffCurrentLoop_count_resolved (p : String) (now : Nat) (K : List Incident)
    (cur : List Incident) (ku : List String) (i : String) :
    countEventsFor "resolved" i (diffCurrentLoop p now K cur ku).1 = 0 := by
  simp only [countEventsFor, List.length_eq_zero, List.filter_eq_nil_iff]
  intro e he
  rcases diffCurrentLoop_events_spec p now K cur ku e he with ⟨-, -, -, htype⟩
  rcases htype with ⟨ht, -⟩ | ⟨ht, -⟩ <;> simp [ht]

/-- C2: `_diff_and_publish` emits exactly one `resolved` event for an
incident id when that id was previously known with a non-`resolved`
status and its entry in the current snapshot is `resolved`, and none
otherwise (previously already resolved, or id absent from the previous
snapshot).  The count does not depend on the known-update-id state, so
the `resolved` event is emitted independently of and in addition to any
`incident_update` event of the same tick. -/
theorem resolved_event_iff_transition (p : String) (now : Nat) (st : DiffState)
    (current : List Incident) (i : String)
    (hK : (st.known_incidents.map Incident.id).Nodup)
    (hC : (current.map Incident.id).Nodup) :
    countEventsFor "resolved" i (diffAndPublish p now st current).1 =
      if ∃ old ∈ st.known_incidents, old.id = i ∧ old.status ≠ IncidentStatus.resolved ∧
          ∃ nw ∈ current, nw.id = i ∧ nw.status = IncidentStatus.resolved
      then 1 else 0 := by
  simp only [diffAndPublish]
  rw [countEventsFor_append, diffCurrentLoop_count_resolved,
    diffResolvedLoop_count p now i current hC st.known_incidents hK]
  simp

/-- Witness for C2: a monitored incident moves from `monitoring` to
`resolved` while also gaining update `U3`; exactly one `resolved` event
is emitted. -/
theorem resolved_event_iff_transition_witness :
    countEventsFor "resolved" "INC1"
      (diffAndPublish "p" 1
        { known_incidents := [sampleIncident "INC1" IncidentStatus.monitoring ["U1", "U2"]],
          known_update_ids := ["U1", "U2"] }
        [sampleIncident "INC1" IncidentStatus.resolved ["U1", "U2", "U3"]]).1 = 1 := by
  rw [resolved_event_iff_transition "p" 1
    { known_incidents := [sampleIncident "INC1" IncidentStatus.monitoring ["U1", "U2"]],
      known_update_ids := ["U1", "U2"] }
    [sampleIncident "INC1" IncidentStatus.resolved ["U1", "U2", "U3"]] "INC1"
    (by decide) (by decide)]
  rw [if_pos]
  exact ⟨sampleIncident "INC1" IncidentStatus.monitoring ["U1", "U2"], by decide, by decide,
    by decide, sampleIncident "INC1" IncidentStatus.resolved ["U1", "U2", "U3"], by decide,
    by decide, by decide⟩

/-- The first diff loop emits no event for an id absent from `current`. -/
theorem diffCurrentLoop_filter_id_nil (p : String) (now : Nat) (K : List Incident)
    (cur : List Incident) (ku : List String) (i : String)
    (h : ∀ c ∈ cur, c.id ≠ i) :
    (diffCurrentLoop p now K cur ku).1.filter (fun e => e.incident.id == i) = [] := by
  rw [List.filter_eq_nil_iff]
  intro e he
  rcases diffCurrentLoop_events_spec p now K cur ku e he with ⟨-, -, hmem, -⟩
  simpa using h e.incident hmem

/-- The `resolved` loop emits no event for an id that was not previously known. -/
theorem diffResolvedLoop_filter_id_nil (p : String) (now : Nat) (K cur : List Incident)
    (i : String) (hK : ∀ k ∈ K, k.id ≠ i) :
    (diffResolvedLoop p now K cur).filter (fun e => e.incident.id == i) = [] := by
  rw [List.filter_eq_nil_iff]
  intro e he
  rcases diffResolvedLoop_mem p now K cur e he with ⟨-, -, -, -, -, old, hold, holdid, -⟩
  simp only [beq_iff_eq]
  exact fun hei => hK old hold (holdid.trans hei)

/-- On the first tick in which an id appears, the first diff loop emits
exactly the single `new_incident` event for it. -/
theorem diffCurrentLoop_first_tick (p : String) (now : Nat) (K : List Incident)
    (i : String) (hK : ∀ k ∈ K, k.id ≠ i) (inc : Incident) (hid : inc.id = i) :
    ∀ (cur : List Incident) (ku : List String), (cur.map Incident.id).Nodup → inc ∈ cur →
      (diffCurrentLoop p now K cur ku).1.filter (fun e => e.incident.id == i) =
        [{ provider := p, incident := inc, event_type := "new_incident",
           detected_at := now }] := by
  intro cur
  induction cur with
  | nil => intro ku _ hmem; simp at hmem
  | cons c rest ih =>
    intro ku hnd hmem
    have hndr : (rest.map Incident.id).Nodup := (List.nodup_cons.mp (by simpa using hnd)).2
    have hcni : c.id ∉ rest.map Incident.id := (List.nodup_cons.mp (by simpa using hnd)).1
    rcases List.mem_cons.mp hmem with he | he
    · subst he
      have hrest : ∀ d ∈ rest, d.id ≠ i := by
        intro d hd hdi
        apply hcni
        rw [hid, ← hdi]
        exact List.mem_map_of_mem Incident.id hd
      have hkb : ¬ ((K.any (fun k => k.id == inc.id)) = true) := by
        simp only [List.any_eq_true, not_exists, not_and]
        push_neg
        intro k hk
        simpa [hid] using hK k hk
      rw [diffCurrentLoop, if_neg hkb]
      dsimp only
      rw [List.filter_cons, if_pos (by simp [hid])]
      rw [diffCurrentLoop_filter_id_nil p now K rest _ i hrest]
    · have hci : c.id ≠ i := by
        intro hc
        apply hcni
        rw [hc, ← hid]
        exact List.mem_map_of_mem Incident.id he
      rw [diffCurrentLoop]
      by_cases hkc : (K.any (fun k => k.id == c.id)) = true
      · rw [if_pos hkc]
        dsimp only
        by_cases hni : (((updateIds c).filter (fun u => !ku.contains u)).isEmpty) = true
        · rw [if_pos hni]
          exact ih _ hndr he
        · rw [if_neg hni]
          dsimp only
          rw [List.filter_cons, if_neg (by simp [hci])]
          exact ih _ hndr he
      · rw [if_neg hkc]
        dsimp only
        rw [List.filter_cons, if_neg (by simp [hci])]
        exact ih _ hndr he

/-- C7: the first tick in which an incident id appears in the current
snapshot emits exactly one event for that id, a `new_incident` event,
and in particular no `incident_update` event; moreover (for arbitrary
diff states) an `incident_update` event is only ever emitted for an id
already present in the previous snapshot, so it can only follow the
`new_incident` event in a strictly later tick. -/
theorem new_incident_precedes_updates (p : String) (now : Nat) (st : DiffState)
    (current : List Incident) (inc : Incident)
    (hC : (current.map Incident.id).Nodup) (hmem : inc ∈ current)
    (hnew : ∀ k ∈ st.known_incidents, k.id ≠ inc.id) :
    (diffAndPublish p now st current).1.filter (fun e => e.incident.id == inc.id) =
      [{ provider := p, incident := inc, event_type := "new_incident",
         detected_at := now }] ∧
    ∀ (st2 : DiffState) (cur2 : List Incident) (e : StatusEvent),
      e ∈ (diffAndPublish p now st2 cur2).1 → e.event_type = "incident_update" →
      ∃ k ∈ st2.known_incidents, k.id = e.incident.id := by
  constructor
  · simp only [diffAndPublish, List.filter_append]
    rw [diffCurrentLoop_first_tick p now st.known_incidents inc.id hnew inc rfl current
      st.known_update_ids hC hmem]
    rw [diffResolvedLoop_filter_id_nil p now st.known_incidents current inc.id hnew]
    simp
  · intro st2 cur2 e he htype
    simp only [diffAndPublish, List.mem_append] at he
    rcases he with he | he
    · rcases diffCurrentLoop_events_spec p now st2.known_incidents cur2 st2.known_update_ids e he
        with ⟨-, -, -, hdis⟩
      rcases hdis with ⟨ht, -⟩ | ⟨-, hk⟩
      · rw [htype] at ht
        exact absurd ht (by decide)
      · exact hk
    · rcases diffResolvedLoop_mem p now st2.known_incidents cur2 e he with ⟨-, -, ht, -⟩
      rw [htype] at ht
      exact absurd ht (by decide)

/-- Witness for C7: spec scenario 1 — empty previous snapshot, one
current incident, exactly one `new_incident` event for it. -/
theorem new_incident_precedes_updates_witness :
    (diffAndPublish "p" 1 {}
        [sampleIncident "INC1" IncidentStatus.investigating ["U1"]]).1.filter
      (fun e => e.incident.id == (sampleIncident "INC1" IncidentStatus.investigating ["U1"]).id) =
    [{ provider := "p", incident := sampleIncident "INC1" IncidentStatus.investigating ["U1"],
       event_type := "new_incident", detected_at := 1 }] :=
  (new_incident_precedes_updates "p" 1 {}
    [sampleIncident "INC1" IncidentStatus.investigating ["U1"]]
    (sampleIncident "INC1" IncidentStatus.investigating ["U1"])
    (by decide) (by decide) (by decide)).1

/-- C4: a tick whose fetch returns `304 Not Modified` leaves the whole
monitor state (including the cached ETag and Last-Modified validators)
unchanged and publishes no events, without consulting the parser; a tick
whose body hashes to the previously stored content hash publishes no
events and performs no diff — only the validator headers of the fresh
response are stored. -/
theorem unchanged_fetch_no_events (p : String) (now : Nat)
    (parse : String → Option (List Incident)) (sf : Option SummaryData)
    (st : MonitorState) (et lm : Option String) (body : String)
    (hhash : st.last_hash = Option.some (sha256Hexdigest body)) :
    tick p now parse FetchOutcome.notModified sf st = (st, []) ∧
    tick p now parse (FetchOutcome.ok et lm body) sf st =
      ({ st with etag := et, last_modified := lm }, []) := by
  refine ⟨rfl, ?_⟩
  simp only [tick]
  rw [if_pos]
  rw [hhash]
  simp

/-- Witness for C4 at a concrete state whose stored hash matches the
fetched body. -/
theorem unchanged_fetch_no_events_witness :
    tick "p" 1 (fun _ => Option.none) FetchOutcome.notModified Option.none
      { last_hash := Option.some "body" } = ({ last_hash := Option.some "body" }, []) ∧
    tick "p" 1 (fun _ => Option.none)
      (FetchOutcome.ok (Option.some "e2") (Option.some "lm2") "body") Option.none
      { last_hash := Option.some "body" } =
      ({ etag := Option.some "e2", last_modified := Option.some "lm2",
         last_hash := Option.some "body" }, []) :=
  unchanged_fetch_no_events "p" 1 (fun _ => Option.none) Option.none
    { last_hash := Option.some "body" } (Option.some "e2") (Option.some "lm2") "body" rfl

/-- C9: a 2xx tick with a changed body whose JSON parsing fails commits
the response's ETag, Last-Modified and content hash but leaves the
known-incident snapshot and summary unchanged and publishes nothing;
consequently the next tick with the byte-identical body short-circuits
on the hash comparison (for any parser and summary outcome), so the
body's changes are never emitted. -/
theorem parse_failure_commits_validators (p : String) (now now2 : Nat)
    (parse parse2 : String → Option (List Incident)) (sf sf2 : Option SummaryData)
    (st : MonitorState) (et lm et2 lm2 : Option String) (body : String)
    (hhash : st.last_hash ≠ Option.some (sha256Hexdigest body))
    (hparse : parse body = Option.none) :
    tick p now parse (FetchOutcome.ok et lm body) sf st =
      ({ st with etag := et, last_modified := lm, last_hash := Option.some (sha256Hexdigest body) }, []) ∧
    tick p now2 parse2 (FetchOutcome.ok et2 lm2 body) sf2
        { st with etag := et, last_modified := lm, last_hash := Option.some (sha256Hexdigest body) } =
      ({ st with etag := et2, last_modified := lm2, last_hash := Option.some (sha256Hexdigest body) }, []) := by
  constructor
  · simp only [tick]
    rw [if_neg (by simp; exact fun h => hhash h.symm)]
    rw [hparse]
  · simp only [tick]
    rw [if_pos (by simp)]

/-- Witness for C9: first tick parses nothing yet commits the hash; the
second tick with the identical body and a succeeding parser still emits
nothing. -/
theorem parse_failure_commits_validators_witness :
    tick "p" 1 (fun _ => Option.none) (FetchOutcome.ok Option.none Option.none "body")
      Option.none {} =
      ({ etag := Option.none, last_modified := Option.none,
         last_hash := Option.some "body" }, []) ∧
    tick "p" 2 (fun _ => Option.some []) (FetchOutcome.ok (Option.some "e2") Option.none "body")
      Option.none
      { etag := Option.none, last_modified := Option.none,
        last_hash := Option.some "body" } =
      ({ etag := Option.some "e2", last_modified := Option.none,
         last_hash := Option.some "body" }, []) :=
  parse_failure_commits_validators "p" 1 2 (fun _ => Option.none) (fun _ => Option.some [])
    Option.none Option.none {} Option.none Option.none (Option.some "e2") Option.none "body"
    (by simp [sha256Hexdigest]) rfl

/-- C10: a tick that short-circuits on `304` or on an unchanged content
hash leaves the cached `StatusSummary` untouched even when summary data
would have been available — the summary fetch is skipped entirely. -/
theorem short_circuit_skips_summary (p : String) (now : Nat)
    (parse : String → Option (List Incident)) (sf : Option SummaryData)
    (st : MonitorState) (et lm : Option String) (body : String)
    (hhash : st.last_hash = Option.some (sha256Hexdigest body)) :
    (tick p now parse FetchOutcome.notModified sf st).1.summary = st.summary ∧
    (tick p now parse (FetchOutcome.ok et lm body) sf st).1.summary = st.summary := by
  refine ⟨rfl, ?_⟩
  simp only [tick]
  rw [if_pos]
  rw [hhash]
  simp

/-- Witness for C10: summary data is available but the cached summary is
untouched on both short-circuit paths. -/
theorem short_circuit_skips_summary_witness :
    (tick "p" 1 (fun _ => Option.none) FetchOutcome.notModified (Option.some {})
        { last_hash := Option.some "body",
          summary := Option.some sampleSummary }).1.summary = Option.some sampleSummary ∧
    (tick "p" 1 (fun _ => Option.none)
        (FetchOutcome.ok Option.none Option.none "body") (Option.some {})
        { last_hash := Option.some "body",
          summary := Option.some sampleSummary }).1.summary = Option.some sampleSummary :=
  short_circuit_skips_summary "p" 1 (fun _ => Option.none) (Option.some {})
    { last_hash := Option.some "body", summary := Option.some sampleSummary }
    Option.none Option.none "body" rfl

/-- A delivered event is always enqueued, as the newest element. -/
theorem deliverQueue_getLast (m : Nat) (q : List StatusEvent) (e : StatusEvent) :
    (deliverQueue m q e).getLast? = Option.some e := by
  unfold deliverQueue
  split <;> simp [List.getLast?_concat]

/-- C5: `EventBus.publish` fan-out: the delivery outcome at position `i`
of the snapshot depends only on subscriber `i`'s own state — replacing
every other subscriber (including by ones whose callbacks raise or whose
queues are full) leaves it unchanged — and every snapshot member ends
with the event enqueued as the newest element of its queue; `publishAll`
is total, so per-subscriber failures never propagate to the caller. -/
theorem publish_isolated_delivery (subs subsB : List Subscription) (e : StatusEvent) (i : Nat)
    (heq : subs[i]? = subsB[i]?) :
    (publishAll subs e)[i]? = (publishAll subsB e)[i]? ∧
    ∀ s : Subscription, subs[i]? = Option.some s →
      (publishAll subs e)[i]? = Option.some (s.deliver e).1 ∧
      (s.deliver e).1.queue.getLast? = Option.some e := by
  constructor
  · simp only [publishAll, List.getElem?_map, heq]
  · intro s hs
    refine ⟨by simp [publishAll, hs], ?_⟩
    exact deliverQueue_getLast s.maxsize s.queue e

/-- Witness for C5: a subscriber with a full queue and raising callback
in slot 0 does not affect delivery to the subscriber in slot 1. -/
theorem publish_isolated_delivery_witness :
    (publishAll [sampleFullFailingSub, sampleOkSub] (sampleEvent 2))[1]? =
      (publishAll [sampleOtherSub, sampleOkSub] (sampleEvent 2))[1]? ∧
    (sampleOkSub.deliver (sampleEvent 2)).1.queue.getLast? = Option.some (sampleEvent 2) :=
  ⟨(publish_isolated_delivery [sampleFullFailingSub, sampleOkSub]
      [sampleOtherSub, sampleOkSub] (sampleEvent 2) 1 rfl).1,
   ((publish_isolated_delivery [sampleFullFailingSub, sampleOkSub]
      [sampleOtherSub, sampleOkSub] (sampleEvent 2) 1 rfl).2 sampleOkSub rfl).2⟩

/-- C6: `_fetch_summary` on failure returns the cached summary exactly
as it was — never cleared or partially replaced — so a consumer that has
once observed a summary never observes `none` afterwards. -/
theorem summary_preserved_on_failure (p : String) (now : Nat) (knownIncs : List Incident)
    (old : Option StatusSummary) :
    fetchSummary p now knownIncs old Option.none = old ∧
    ∀ fetched : Option SummaryData, old.isSome →
      (fetchSummary p now knownIncs old fetched).isSome := by
  refine ⟨rfl, ?_⟩
  intro fetched hsome
  cases fetched with
  | none => exact hsome
  | some d => rfl

/-- Witness for C6 at a concrete cached summary. -/
theorem summary_preserved_on_failure_witness :
    fetchSummary "p" 5 [] (Option.some sampleSummary) Option.none =
      Option.some sampleSummary ∧
    (fetchSummary "p" 5 [] (Option.some sampleSummary) (Option.some {})).isSome :=
  ⟨(summary_preserved_on_failure "p" 5 [] (Option.some sampleSummary)).1,
   (summary_preserved_on_failure "p" 5 [] (Option.some sampleSummary)).2
     (Option.some {}) rfl⟩

/-- Every event in a post-delivery queue is the delivered event or was already queued. -/
theorem mem_deliverQueue (m : Nat) (q : List StatusEvent) (e e2 : StatusEvent)
    (h : e2 ∈ deliverQueue m q e) : e2 = e ∨ e2 ∈ q := by
  unfold deliverQueue at h
  split at h <;> rcases List.mem_append.mp h with h2 | h2
  · exact Or.inr h2
  · simp at h2
    exact Or.inl h2
  · exact Or.inr (List.mem_of_mem_drop h2)
  · simp at h2
    exact Or.inl h2

/-- Running a concatenation of operation lists runs them in sequence. -/
theorem busRun_append (l1 l2 : List BusOp) :
    ∀ st, busRun st (l1 ++ l2) = busRun (busRun st l1) l2 := by
  induction l1 with
  | nil => intro st; rfl
  | cons op rest ih =>
    intro st
    simp only [List.cons_append, busRun]
    exact ih _

/-- Any event found in a subscriber's queue after running a trace was
either published during the trace or already sat in the queue of the
same subscriber (same id) at the start. -/
theorem busRun_queue_origin (ops : List BusOp) :
    ∀ (st : BusState) (sub : Subscription), sub ∈ (busRun st ops).subscribers →
      ∀ e ∈ sub.queue,
        BusOp.publish e ∈ ops ∨
        ∃ sub0 ∈ st.subscribers, sub0.sid = sub.sid ∧ e ∈ sub0.queue := by
  induction ops with
  | nil =>
    intro st sub hsub e he
    exact Or.inr ⟨sub, hsub, rfl, he⟩
  | cons op rest ih =>
    intro st sub hsub e he
    rcases ih (busStep st op) sub hsub e he with hpub | ⟨sub0, hsub0, hsid, he0⟩
    · exact Or.inl (List.mem_cons_of_mem _ hpub)
    · cases op with
      | subscribe m cb =>
        simp only [busStep] at hsub0
        rcases List.mem_append.mp hsub0 with h0 | h0
        · exact Or.inr ⟨sub0, h0, hsid, he0⟩
        · simp only [List.mem_singleton] at h0
          rw [h0] at he0
          simp at he0
      | unsubscribe sid =>
        simp only [busStep] at hsub0
        exact Or.inr ⟨sub0, List.mem_of_mem_filter hsub0, hsid, he0⟩
      | publish ev =>
        simp only [busStep, publishAll] at hsub0
        rcases List.mem_map.mp hsub0 with ⟨s1, hs1, hmap⟩
        rw [← hmap] at he0 hsid
        rcases mem_deliverQueue s1.maxsize s1.queue ev e he0 with hee | hee
        · refine Or.inl ?_
          rw [hee]
          exact List.mem_cons_self _ _
        · exact Or.inr ⟨s1, hs1, hsid, hee⟩

/-- Subscriber ids are always below the bus's fresh-id counter. -/
theorem busRun_sid_bound (ops : List BusOp) :
    ∀ st : BusState, (∀ s ∈ st.subscribers, s.sid < st.nextId) →
      ∀ s ∈ (busRun st ops).subscribers, s.sid < (busRun st ops).nextId := by
  induction ops with
  | nil => intro st h; exact h
  | cons op rest ih =>
    intro st h
    apply ih
    cases op with
    | subscribe m cb =>
      intro s hs
      simp only [busStep] at hs ⊢
      rcases List.mem_append.mp hs with h0 | h0
      · exact Nat.lt_succ_of_lt (h s h0)
      · simp only [List.mem_singleton] at h0
        rw [h0]
        exact Nat.lt_succ_self _
    | unsubscribe sid =>
      intro s hs
      exact h s (List.mem_of_mem_filter hs)
    | publish ev =>
      intro s hs
      simp only [busStep, publishAll] at hs
      rcases List.mem_map.mp hs with ⟨s1, hs1, hmap⟩
      rw [← hmap]
      exact h s1 hs1

/-- C8: an event observable through a subscription is an event published
after that subscription was registered: for any trace `pre ++ subscribe
:: post`, the queue of the subscriber created by that `subscribe` (its
queue starts empty, and publish only reaches subscribers present in the
map at publish time) only ever contains events published in `post`. -/
theorem subscription_sees_no_past_events (pre post : List BusOp) (m : Nat)
    (cb : Option Callback) (sub : Subscription)
    (hsub : sub ∈ (busRun busInit (pre ++ BusOp.subscribe m cb :: post)).subscribers)
    (hsid : sub.sid = (busRun busInit pre).nextId) :
    ∀ e ∈ sub.queue, BusOp.publish e ∈ post := by
  intro e he
  rw [busRun_append] at hsub
  rw [busRun] at hsub
  rcases busRun_queue_origin post _ sub hsub e he with hpub | ⟨sub0, hsub0, hsid0, he0⟩
  · exact hpub
  · exfalso
    simp only [busStep] at hsub0
    rcases List.mem_append.mp hsub0 with h0 | h0
    · have hbound := busRun_sid_bound pre busInit (by simp [busInit]) sub0 h0
      rw [hsid0, hsid] at hbound
      exact Nat.lt_irrefl _ hbound
    · simp only [List.mem_singleton] at h0
      rw [h0] at he0
      simp at he0

/-- Witness for C8: event 1 published before the subscription, event 2
after; the subscriber's final queue holds event 2, and the theorem
applies to it. -/
theorem subscription_sees_no_past_events_witness :
    BusOp.publish (sampleEvent 2) ∈ [BusOp.publish (sampleEvent 2)] :=
  subscription_sees_no_past_events [BusOp.publish (sampleEvent 1)]
    [BusOp.publish (sampleEvent 2)] 2 Option.none
    { sid := 0, maxsize := 2, queue := [sampleEvent 2], callback := Option.none }
    (List.Mem.head _) rfl (sampleEvent 2) (List.Mem.head _)

end StatusPage
